import Mathlib

/-!
Verification of the response-normalization pipeline of `client/batch_vision.py`
and the batch loop of `bu/client/batch_vision.py`.

Python values reaching the normalizers are modelled by the inductive `PyVal`;
Python floats are modelled by exact rationals (`ℚ`), with Python's `round`
(round-half-to-even) modelled by `pyRound`.  Python lists and tuples are both
modelled by `PyVal.list`; Python dicts by association lists with unique keys.
Non-finite floats (`inf`, `nan`) have no counterpart in `ℚ` and are outside
this embedding.
-/

attribute [local semireducible] Rat.add Rat.mul Rat.sub Rat.inv Rat.ofScientific

/-- A Python value as it can appear in a decoded JSON response.  `bool` is kept
separate from `int` even though Python's `bool` is an `int` subclass; the
coercions below account for that. -/
inductive PyVal where
  | none : PyVal
  | bool (b : Bool) : PyVal
  | int (n : Int) : PyVal
  | float (q : ℚ) : PyVal
  | str (s : String) : PyVal
  | list (xs : List PyVal) : PyVal
  | dict (kvs : List (String × PyVal)) : PyVal

/-- Digits to a natural number, most significant first. -/
def digitsToNat (ds : List Char) : Nat :=
  ds.foldl (fun a c => a * 10 + (c.toNat - 48)) 0

/-- Python whitespace stripped by `str.strip()` (ASCII part). -/
def isPyWs (c : Char) : Bool :=
  c = ' ' || c = '\t' || c = '\n' || c = '\r' || c = '\x0b' || c = '\x0c'

/-- Model of `str.strip()` on a character list. -/
def stripChars (cs : List Char) : List Char :=
  ((cs.dropWhile isPyWs).reverse.dropWhile isPyWs).reverse

/-- Unsigned decimal mantissa of a Python float literal: digits, optionally a
dot and more digits; at least one digit overall. Returns the value and rest. -/
def parseMantissa (cs : List Char) : Option (ℚ × List Char) :=
  let ip := cs.takeWhile Char.isDigit
  let r1 := cs.dropWhile Char.isDigit
  match r1 with
  | '.' :: r2 =>
    let fp := r2.takeWhile Char.isDigit
    let r3 := r2.dropWhile Char.isDigit
    if ip.isEmpty && fp.isEmpty then Option.none
    else Option.some ((digitsToNat ip : ℚ) + (digitsToNat fp : ℚ) / ((10 ^ fp.length : ℕ) : ℚ), r3)
  | _ =>
    if ip.isEmpty then Option.none else Option.some ((digitsToNat ip : ℚ), r1)

/-- Optional exponent part `e`/`E`, sign, digits.  When the text does not start
with `e`/`E` the exponent is `0` and the text is left untouched; a bare `e`
with no digits fails (as Python's `float` does). -/
def parseExponent (cs : List Char) : Option (Int × List Char) :=
  match cs with
  | 'e' :: r | 'E' :: r =>
    let (sgn, r2) : Int × List Char :=
      match r with
      | '+' :: rr => (1, rr)
      | '-' :: rr => (-1, rr)
      | rr => (1, rr)
    let ds := r2.takeWhile Char.isDigit
    let r3 := r2.dropWhile Char.isDigit
    if ds.isEmpty then Option.none else Option.some (sgn * (digitsToNat ds : Int), r3)
  | _ => Option.some (0, cs)

/-- Scale a rational by a signed power of ten, using `Nat` powers only. -/
def scalePow10 (q : ℚ) (e : Int) : ℚ :=
  if e = 0 then q
  else if 0 ≤ e then q * ((10 ^ e.toNat : ℕ) : ℚ)
  else q / ((10 ^ (-e).toNat : ℕ) : ℚ)

/-- Model of Python's `float(s)` on finite decimal literals: optional sign,
mantissa, optional exponent, nothing else.  `inf`/`nan` literals are outside
the `ℚ` embedding and yield `none`. -/
def parsePyFloat (s : String) : Option ℚ :=
  let cs := s.toList
  let (sgn, cs1) : ℚ × List Char :=
    match cs with
    | '+' :: r => (1, r)
    | '-' :: r => (-1, r)
    | r => (1, r)
  match parseMantissa cs1 with
  | Option.some (m, rest) =>
    match parseExponent rest with
    | Option.some (e, []) => Option.some (sgn * scalePow10 m e)
    | _ => Option.none
  | Option.none => Option.none

/-- Model of `_to_float` (client/batch_vision.py lines 56-64): ints, floats and
bools (a Python `bool` is an `int`) convert directly; strings are stripped and
parsed as float literals; everything else is `None`. -/
def _to_float : PyVal → Option ℚ
  | PyVal.int n => Option.some (n : ℚ)
  | PyVal.float q => Option.some q
  | PyVal.bool b => Option.some (if b then 1 else 0)
  | PyVal.str s => parsePyFloat (String.mk (stripChars s.toList))
  | _ => Option.none

/-- Model of `_clamp` (line 67-68): `max(low, min(high, val))`. -/
def _clamp (val low high : Int) : Int :=
  max low (min high val)

/-- Python's `round` on a rational: round half to even.  `int(round(x))` in the
source is the identity composed with this, since one-argument `round` already
returns an int. -/
def pyRound (q : ℚ) : Int :=
  let f := ⌊q⌋
  let frac := q - (f : ℚ)
  if frac < 1/2 then f
  else if 1/2 < frac then f + 1
  else if f % 2 = 0 then f else f + 1

/-- Model of `normalize_point` (lines 71-87).  A missing `image_size` is
Python's `None`; `PyVal.list` covers both Python lists and tuples. -/
def normalize_point (point : PyVal) (image_size : Option (Int × Int)) : List Int :=
  match point, image_size with
  | PyVal.list xs, Option.some (w, h) =>
    if xs.length < 2 then [0, 0]
    else
      match _to_float (xs.getD 0 PyVal.none), _to_float (xs.getD 1 PyVal.none) with
      | Option.some x, Option.some y =>
        if w ≤ 0 ∨ h ≤ 0 then [0, 0]
        else
          let p :=
            if 0 ≤ x ∧ x ≤ 1 ∧ 0 ≤ y ∧ y ≤ 1 then
              (pyRound (x * ((w : ℚ) - 1)), pyRound (y * ((h : ℚ) - 1)))
            else
              (pyRound x, pyRound y)
          [_clamp p.1 0 (w - 1), _clamp p.2 0 (h - 1)]
      | _, _ => [0, 0]
  | _, _ => [0, 0]

/-- Rounding, axis sorting, degeneracy checks and clamping of
`normalize_bbox` (lines 105-121), after the unit decision. -/
def roundSortClamp (x1 y1 x2 y2 : ℚ) (w h : Int) : List Int :=
  let rx1 := pyRound x1
  let ry1 := pyRound y1
  let rx2 := pyRound x2
  let ry2 := pyRound y2
  let a := min rx1 rx2
  let c := max rx1 rx2
  let b := min ry1 ry2
  let d := max ry1 ry2
  if c = a ∨ d = b then [0, 0, 0, 0]
  else
    let a2 := _clamp a 0 (w - 1)
    let b2 := _clamp b 0 (h - 1)
    let maxx := max (a2 + 1) (w - 1)
    let maxy := max (b2 + 1) (h - 1)
    let c2 := _clamp c (a2 + 1) maxx
    let d2 := _clamp d (b2 + 1) maxy
    if c2 = a2 ∨ d2 = b2 then [0, 0, 0, 0] else [a2, b2, c2, d2]

/-- Unit decision of `normalize_bbox` (lines 100-104) followed by
`roundSortClamp`: when all four values lie in `[0,1]` they are treated as
fractional and scaled by `(w-1, h-1)`. -/
def normBoxCore (x1 y1 x2 y2 : ℚ) (w h : Int) : List Int :=
  if 0 ≤ x1 ∧ x1 ≤ 1 ∧ 0 ≤ y1 ∧ y1 ≤ 1 ∧ 0 ≤ x2 ∧ x2 ≤ 1 ∧ 0 ≤ y2 ∧ y2 ≤ 1 then
    roundSortClamp (x1 * ((w : ℚ) - 1)) (y1 * ((h : ℚ) - 1))
      (x2 * ((w : ℚ) - 1)) (y2 * ((h : ℚ) - 1)) w h
  else
    roundSortClamp x1 y1 x2 y2 w h

/-- Model of `normalize_bbox` (lines 90-121). -/
def normalize_bbox (bbox : PyVal) (image_size : Option (Int × Int)) : List Int :=
  match bbox, image_size with
  | PyVal.list xs, Option.some (w, h) =>
    if xs.length < 4 then [0, 0, 0, 0]
    else
      match _to_float (xs.getD 0 PyVal.none), _to_float (xs.getD 1 PyVal.none),
            _to_float (xs.getD 2 PyVal.none), _to_float (xs.getD 3 PyVal.none) with
      | Option.some x1, Option.some y1, Option.some x2, Option.some y2 =>
        if w ≤ 0 ∨ h ≤ 0 then [0, 0, 0, 0]
        else normBoxCore x1 y1 x2 y2 w h
      | _, _, _, _ => [0, 0, 0, 0]
  | _, _ => [0, 0, 0, 0]

/-- Model of `ensure_bbox` (lines 124-136).  The `point` argument always has
exactly two entries in the program (it is a `normalize_point` result); the
Python unpacking `x, y = point` would raise on any other shape, never reached. -/
def ensure_bbox (bbox point : List Int) (image_size : Option (Int × Int)) : List Int :=
  if bbox ≠ [] ∧ bbox.any (fun v => v ≠ 0) then bbox
  else
    match image_size, point with
    | Option.some (w, h), [x, y] =>
      if x ≠ 0 ∨ y ≠ 0 then
        let half := max 20 (pyRound (((min w h : Int) : ℚ) * (1/20)))
        let x1 := _clamp (x - half) 0 (w - 1)
        let y1 := _clamp (y - half) 0 (h - 1)
        let x2 := _clamp (x + half) (x1 + 1) w
        let y2 := _clamp (y + half) (y1 + 1) h
        [x1, y1, x2, y2]
      else [0, 0, 0, 0]
    | _, _ => [0, 0, 0, 0]

/-- Re-injection of an integer box (a `normalize_bbox` output) as a Python
value, for feeding the output back to `normalize_bbox`. -/
def intListToPyVal (xs : List Int) : PyVal :=
  PyVal.list (xs.map PyVal.int)

/-- The backtick character of a markdown code fence. -/
def fenceChar : Char := '\x60'

/-- Replacement of every literal backslash-underscore by an underscore,
modelling `cleaned.replace("\\_", "_")` (line 176): a left-to-right scan over
non-overlapping occurrences. -/
def unescapeUnderscores : List Char → List Char
  | '\\' :: '_' :: rest => '_' :: unescapeUnderscores rest
  | c :: rest => c :: unescapeUnderscores rest
  | [] => []

/-- Case-insensitive removal of a leading `json` tag, the `(?:json)?` part of
the fence-stripping regex on line 174. -/
def dropJsonTag (cs : List Char) : List Char :=
  match cs with
  | a :: b :: c :: d :: rest =>
    if (a = 'j' ∨ a = 'J') ∧ (b = 's' ∨ b = 'S') ∧ (c = 'o' ∨ c = 'O') ∧ (d = 'n' ∨ d = 'N') then
      rest
    else cs
  | _ => cs

/-- Model of `clean_response_text` (lines 171-177) on a character list: strip,
remove a leading markdown fence (with optional `json` tag) and a trailing
fence when the text starts with one, strip again, unescape underscores. -/
def cleanChars (cs : List Char) : List Char :=
  let cleaned := stripChars cs
  let cleaned :=
    if List.isPrefixOf [fenceChar, fenceChar, fenceChar] cleaned then
      let c1 := dropJsonTag (cleaned.drop 3)
      let c1 := stripChars c1
      let c1 :=
        if List.isSuffixOf [fenceChar, fenceChar, fenceChar] c1 then c1.take (c1.length - 3)
        else c1
      stripChars c1
    else cleaned
  unescapeUnderscores cleaned

/-- Model of `clean_response_text` (lines 171-177) on strings. -/
def clean_response_text (text : String) : String :=
  String.mk (cleanChars text.toList)

/-- JSON whitespace accepted between tokens by `json.loads`. -/
def jsonWsChar (c : Char) : Bool :=
  c = ' ' || c = '\t' || c = '\n' || c = '\r'

/-- Drop leading JSON whitespace. -/
def skipJsonWs (cs : List Char) : List Char :=
  cs.dropWhile jsonWsChar

/-- Value of one hexadecimal digit. -/
def hexDigitVal (c : Char) : Option Nat :=
  if '0' ≤ c ∧ c ≤ '9' then Option.some (c.toNat - 48)
  else if 'a' ≤ c ∧ c ≤ 'f' then Option.some (c.toNat - 87)
  else if 'A' ≤ c ∧ c ≤ 'F' then Option.some (c.toNat - 55)
  else Option.none

/-- Body of a JSON string after the opening quote: ordinary characters, the
JSON escapes, and a rejection of raw control characters, as in the strict
decoder used by `json.loads`.  Returns the string and the input after the
closing quote. -/
def parseStringBody : Nat → List Char → List Char → Option (String × List Char)
  | 0, _, _ => Option.none
  | _ + 1, [], _ => Option.none
  | fuel + 1, c :: rest, acc =>
    if c = '"' then Option.some (String.mk acc.reverse, rest)
    else if c = '\\' then
      match rest with
      | '"' :: r => parseStringBody fuel r ('"' :: acc)
      | '\\' :: r => parseStringBody fuel r ('\\' :: acc)
      | '/' :: r => parseStringBody fuel r ('/' :: acc)
      | 'b' :: r => parseStringBody fuel r ('\x08' :: acc)
      | 'f' :: r => parseStringBody fuel r ('\x0c' :: acc)
      | 'n' :: r => parseStringBody fuel r ('\n' :: acc)
      | 'r' :: r => parseStringBody fuel r ('\r' :: acc)
      | 't' :: r => parseStringBody fuel r ('\t' :: acc)
      | 'u' :: h1 :: h2 :: h3 :: h4 :: r =>
        match hexDigitVal h1, hexDigitVal h2, hexDigitVal h3, hexDigitVal h4 with
        | Option.some a, Option.some b, Option.some c2, Option.some d =>
          parseStringBody fuel r (Char.ofNat (((a * 16 + b) * 16 + c2) * 16 + d) :: acc)
        | _, _, _, _ => Option.none
      | _ => Option.none
    else if c.toNat < 32 then Option.none
    else parseStringBody fuel rest (c :: acc)

/-- Value of a JSON number from its sign, integer digits, fraction digits and
exponent. -/
def jsonNumberVal (neg : Bool) (ip fp : List Char) (e : Int) : ℚ :=
  let base : ℚ := (digitsToNat ip : ℚ) + (digitsToNat fp : ℚ) / ((10 ^ fp.length : ℕ) : ℚ)
  scalePow10 (if neg then -base else base) e

/-- A JSON number: optional minus, integer part without leading zeros,
optional fraction, optional exponent.  A literal with a dot or an exponent
decodes to a Python float, otherwise to a Python int, as `json.loads` does. -/
def parseJsonNumber (cs : List Char) : Option (PyVal × List Char) :=
  let (neg, cs1) : Bool × List Char :=
    match cs with
    | '-' :: r => (true, r)
    | r => (false, r)
  let ip := cs1.takeWhile Char.isDigit
  let r1 := cs1.dropWhile Char.isDigit
  if ip.isEmpty then Option.none
  else if 2 ≤ ip.length ∧ ip.headD '1' = '0' then Option.none
  else
    match r1 with
    | '.' :: r2 =>
      let fp := r2.takeWhile Char.isDigit
      let r3 := r2.dropWhile Char.isDigit
      if fp.isEmpty then Option.none
      else
        match parseExponent r3 with
        | Option.some (e, r4) => Option.some (PyVal.float (jsonNumberVal neg ip fp e), r4)
        | Option.none => Option.none
    | 'e' :: _ =>
      match parseExponent r1 with
      | Option.some (e, r4) => Option.some (PyVal.float (jsonNumberVal neg ip [] e), r4)
      | Option.none => Option.none
    | 'E' :: _ =>
      match parseExponent r1 with
      | Option.some (e, r4) => Option.some (PyVal.float (jsonNumberVal neg ip [] e), r4)
      | Option.none => Option.none
    | _ =>
      Option.some (PyVal.int (if neg then -(digitsToNat ip : Int) else (digitsToNat ip : Int)), r1)

mutual

/-- A JSON value, fuelled recursive descent modelling `json.loads`. -/
def parseJsonValue : Nat → List Char → Option (PyVal × List Char)
  | 0, _ => Option.none
  | fuel + 1, cs =>
    match skipJsonWs cs with
    | '\x7b' :: rest =>
      match skipJsonWs rest with
      | '\x7d' :: r2 => Option.some (PyVal.dict [], r2)
      | _ => parseJsonMembers fuel rest []
    | '[' :: rest =>
      match skipJsonWs rest with
      | ']' :: r2 => Option.some (PyVal.list [], r2)
      | _ => parseJsonElements fuel rest []
    | '"' :: rest =>
      match parseStringBody (rest.length + 1) rest [] with
      | Option.some (s, r) => Option.some (PyVal.str s, r)
      | Option.none => Option.none
    | 't' :: 'r' :: 'u' :: 'e' :: rest => Option.some (PyVal.bool true, rest)
    | 'f' :: 'a' :: 'l' :: 's' :: 'e' :: rest => Option.some (PyVal.bool false, rest)
    | 'n' :: 'u' :: 'l' :: 'l' :: rest => Option.some (PyVal.none, rest)
    | rest => parseJsonNumber rest

/-- The members of a JSON object after the opening brace; a repeated key keeps
its last value, as a Python dict does. -/
def parseJsonMembers : Nat → List Char → List (String × PyVal) →
    Option (PyVal × List Char)
  | 0, _, _ => Option.none
  | fuel + 1, cs, acc =>
    match skipJsonWs cs with
    | '"' :: rest =>
      match parseStringBody (rest.length + 1) rest [] with
      | Option.some (key, r1) =>
        match skipJsonWs r1 with
        | ':' :: r2 =>
          match parseJsonValue fuel r2 with
          | Option.some (v, r3) =>
            let acc2 := acc.filter (fun kv => kv.1 != key) ++ [(key, v)]
            match skipJsonWs r3 with
            | ',' :: r4 => parseJsonMembers fuel r4 acc2
            | '\x7d' :: r4 => Option.some (PyVal.dict acc2, r4)
            | _ => Option.none
          | Option.none => Option.none
        | _ => Option.none
      | Option.none => Option.none
    | _ => Option.none

/-- The elements of a JSON array after the opening bracket. -/
def parseJsonElements : Nat → List Char → List PyVal → Option (PyVal × List Char)
  | 0, _, _ => Option.none
  | fuel + 1, cs, acc =>
    match parseJsonValue fuel cs with
    | Option.some (v, r1) =>
      match skipJsonWs r1 with
      | ',' :: r2 => parseJsonElements fuel r2 (v :: acc)
      | ']' :: r2 => Option.some (PyVal.list (v :: acc).reverse, r2)
      | _ => Option.none
    | Option.none => Option.none

end

/-- Model of `json.loads`: one complete JSON value with nothing but whitespace
after it.  The fuel exceeds any possible number of descent steps for the
input. -/
def json_loads (s : String) : Option PyVal :=
  let cs := s.toList
  match parseJsonValue (8 * (cs.length + 1)) cs with
  | Option.some (v, rest) => if (skipJsonWs rest).isEmpty then Option.some v else Option.none
  | Option.none => Option.none

/-- The span matched by `re.search(r"\{.*\}", cleaned, re.DOTALL)` on line 183:
leftmost start, so from the first opening brace, and a greedy `.*` spanning
newlines, so up to the last closing brace of the whole text; no match when no
closing brace follows the first opening one. -/
def braceSpanChars (cs : List Char) : Option (List Char) :=
  match cs.findIdx? (fun c => c = '\x7b'), cs.reverse.findIdx? (fun c => c = '\x7d') with
  | Option.some i, Option.some jr =>
    let j := cs.length - 1 - jr
    if i < j then Option.some ((cs.drop i).take (j - i + 1)) else Option.none
  | _, _ => Option.none

/-- Model of `extract_json` (lines 180-189): clean, locate the greedy brace
span, attempt a JSON parse; any failure gives `none`. -/
def extract_json (text : String) : Option PyVal :=
  let cleaned := cleanChars text.toList
  match braceSpanChars cleaned with
  | Option.some span => json_loads (String.mk span)
  | Option.none => Option.none

/-- The parse step of the main loop (lines 282-288): nothing for empty
content; otherwise clean, try a direct `json.loads`, and fall back to
`extract_json` on the cleaned text. -/
def parseContent (content : String) : Option PyVal :=
  if content = "" then Option.none
  else
    let cleaned := clean_response_text content
    match json_loads cleaned with
    | Option.some v => Option.some v
    | Option.none => extract_json cleaned

/-- Python truthiness of a value, as used by `bool(...)` and `if not parsed`. -/
def pyTruthy : PyVal → Bool
  | PyVal.none => false
  | PyVal.bool b => b
  | PyVal.int n => n != 0
  | PyVal.float q => q != 0
  | PyVal.str s => s != ""
  | PyVal.list xs => !xs.isEmpty
  | PyVal.dict kvs => !kvs.isEmpty

/-- Whether a value is a Python dict, for the `isinstance(parsed, dict)` test. -/
def isDict : PyVal → Bool
  | PyVal.dict _ => true
  | _ => false

/-- Model of `parsed.get(key, default)`. -/
def pyGet (v : PyVal) (key : String) (dflt : PyVal) : PyVal :=
  match v with
  | PyVal.dict kvs =>
    match kvs.lookup key with
    | Option.some x => x
    | Option.none => dflt
  | _ => dflt

/-- Model of `parsed.get(key)` with its `None` default kept apart from a
stored `None`. -/
def pyGetOpt (v : PyVal) (key : String) : Option PyVal :=
  match v with
  | PyVal.dict kvs => kvs.lookup key
  | _ => Option.none

/-- Rendering of a value as Python's `repr`, to bounded depth.  Scalars other
than floats are exact; float and container formatting approximates Python's
(shortest-roundtrip float printing has no counterpart in `ℚ`).  No claim
exercises this rendering: every reason reaching it in the claims is already a
string. -/
def pyReprF : Nat → PyVal → String
  | _, PyVal.none => "None"
  | _, PyVal.bool b => if b then "True" else "False"
  | _, PyVal.int n => toString n
  | _, PyVal.float q => toString q
  | _, PyVal.str s => "'" ++ s ++ "'"
  | 0, _ => ""
  | fuel + 1, PyVal.list xs =>
    "[" ++ String.intercalate ", " (xs.map (pyReprF fuel)) ++ "]"
  | fuel + 1, PyVal.dict kvs =>
    "\x7b" ++ String.intercalate ", " (kvs.map (fun kv => "'" ++ kv.1 ++ "': " ++ pyReprF fuel kv.2)) ++ "\x7d"

/-- Model of Python's `str(...)` as used on line 295 to coerce a non-string
reason. -/
def pyStr (v : PyVal) : String :=
  match v with
  | PyVal.str s => s
  | w => pyReprF 64 w

/-- The reason coercion of lines 294-295: a string is kept; a present
non-string is stringified; a missing key stringifies the `""` default. -/
def coerceReason (parsed : PyVal) : String :=
  match pyGetOpt parsed "reason" with
  | Option.some (PyVal.str s) => s
  | Option.some v => pyStr v
  | Option.none => pyStr (PyVal.str "")

/-- The final structured record written for one image. -/
structure Verdict where
  is_forbidden : Bool
  reason : String
  point : List Int
  bbox : List Int
deriving DecidableEq, Repr

/-- The fallback object substituted on line 290 when parsing yields nothing,
a falsy value or a non-dict. -/
def fallbackParsed : PyVal :=
  PyVal.dict [("is_forbidden", PyVal.bool false), ("reason", PyVal.str "parse_error"),
    ("point", PyVal.list [PyVal.int 0, PyVal.int 0]),
    ("bbox", PyVal.list [PyVal.int 0, PyVal.int 0, PyVal.int 0, PyVal.int 0])]

/-- The Verdict resulting from the fallback object. -/
def fallbackVerdict : Verdict :=
  { is_forbidden := false, reason := "parse_error", point := [0, 0], bbox := [0, 0, 0, 0] }

/-- The substitution on lines 289-290: keep the parse result only when it is
a truthy dict. -/
def parsedOrFallback (parsed? : Option PyVal) : PyVal :=
  match parsed? with
  | Option.some v => if pyTruthy v && isDict v then v else fallbackParsed
  | Option.none => fallbackParsed

/-- The verdict assembly of the main loop (lines 289-306) from a parse result
and the image size: coerce the flag and the reason, normalize point and bbox,
synthesize a bbox for flagged images, and clear both for unflagged ones. -/
def assembleVerdict (parsed? : Option PyVal) (image_size : Option (Int × Int)) : Verdict :=
  let parsed := parsedOrFallback parsed?
  let is_forbidden := pyTruthy (pyGet parsed "is_forbidden" (PyVal.bool false))
  let reason := coerceReason parsed
  let point := normalize_point (pyGet parsed "point" PyVal.none) image_size
  let bbox := normalize_bbox (pyGet parsed "bbox" PyVal.none) image_size
  if is_forbidden then
    { is_forbidden := true, reason := reason, point := point,
      bbox := ensure_bbox bbox point image_size }
  else
    { is_forbidden := false, reason := reason, point := [0, 0], bbox := [0, 0, 0, 0] }

/-- Assembly of a raw response (lines 278-306): parse the content, then build
the verdict. -/
def assemble (content : String) (image_size : Option (Int × Int)) : Verdict :=
  assembleVerdict (parseContent content) image_size

/-- The per-image decision of the bu batch loop
(`bu/client/batch_vision.py`, lines 92-96): given the names of the files
already in the output directory, an image is processed only when no record
named after its stem exists; otherwise the iteration continues with no
request and no write. -/
def buProcessedStems (existing : List String) (stems : List String) : List String :=
  stems.filter (fun stem => !(existing.contains (stem ++ ".json")))

/-- The per-image decision of the main batch loop
(`client/batch_vision.py`, lines 233-311): the loop body contains no
existence check against the output directory, so every discovered image is
processed and its record written (or rewritten) regardless of existing
records. -/
def clientProcessedStems (existing : List String) (stems : List String) : List String :=
  stems

/-! Helper lemmas about clamping and rounding. -/

theorem _clamp_le {v low high : Int} (h : low ≤ high) : _clamp v low high ≤ high := by
  unfold _clamp
  rcases le_total high v with hv | hv
  · rw [min_eq_left hv, max_eq_right h]
  · exact max_le h (min_le_left _ _)

theorem le_clamp (v low high : Int) : low ≤ _clamp v low high :=
  le_max_left _ _

theorem _clamp_eq_self {v low high : Int} (h1 : low ≤ v) (h2 : v ≤ high) :
    _clamp v low high = v := by
  unfold _clamp
  rw [min_eq_right h2, max_eq_right h1]

theorem pyRound_intCast (n : Int) : pyRound (n : ℚ) = n := by
  simp only [pyRound, Int.floor_intCast, sub_self]
  norm_num

theorem pyRound_zero : pyRound 0 = 0 := by
  have h := pyRound_intCast 0
  simpa using h

theorem pyRound_le {q : ℚ} {n : Int} (h : q ≤ (n : ℚ)) : pyRound q ≤ n := by
  have hfl : ⌊q⌋ ≤ n := by
    have := Int.floor_le_floor h
    rwa [Int.floor_intCast] at this
  simp only [pyRound]
  split_ifs with h1 h2 h3
  · exact hfl
  · have hq : (⌊q⌋ : ℚ) < q := by linarith
    have : ⌊q⌋ < n := by exact_mod_cast lt_of_lt_of_le hq h
    omega
  · exact hfl
  · have hq : (⌊q⌋ : ℚ) < q := by linarith
    have : ⌊q⌋ < n := by exact_mod_cast lt_of_lt_of_le hq h
    omega

theorem le_pyRound {n : Int} {q : ℚ} (h : (n : ℚ) ≤ q) : n ≤ pyRound q := by
  have hfl : n ≤ ⌊q⌋ := Int.le_floor.mpr h
  simp only [pyRound]
  split_ifs <;> omega

/-- Every `roundSortClamp` result is the sentinel or a box whose coordinates
satisfy the clamp-stage invariant. -/
theorem roundSortClamp_spec (x1 y1 x2 y2 : ℚ) (w h : Int) (hw : 0 < w) (hh : 0 < h) :
    roundSortClamp x1 y1 x2 y2 w h = [0, 0, 0, 0] ∨
    ∃ a b c d, roundSortClamp x1 y1 x2 y2 w h = [a, b, c, d] ∧
      0 ≤ a ∧ a ≤ w - 1 ∧ a + 1 ≤ c ∧ c ≤ max (a + 1) (w - 1) ∧
      0 ≤ b ∧ b ≤ h - 1 ∧ b + 1 ≤ d ∧ d ≤ max (b + 1) (h - 1) := by
  simp only [roundSortClamp]
  split_ifs with h1 h2
  · exact Or.inl rfl
  · exact Or.inl rfl
  · right
    refine ⟨_, _, _, _, rfl, ?_, ?_, ?_, ?_, ?_, ?_, ?_, ?_⟩
    · exact le_clamp _ _ _
    · exact _clamp_le (by omega)
    · exact le_clamp _ _ _
    · exact _clamp_le (le_max_left _ _)
    · exact le_clamp _ _ _
    · exact _clamp_le (by omega)
    · exact le_clamp _ _ _
    · exact _clamp_le (le_max_left _ _)

/-- Every `normBoxCore` result is the sentinel or a box satisfying the
clamp-stage invariant. -/
theorem normBoxCore_spec (x1 y1 x2 y2 : ℚ) (w h : Int) (hw : 0 < w) (hh : 0 < h) :
    normBoxCore x1 y1 x2 y2 w h = [0, 0, 0, 0] ∨
    ∃ a b c d, normBoxCore x1 y1 x2 y2 w h = [a, b, c, d] ∧
      0 ≤ a ∧ a ≤ w - 1 ∧ a + 1 ≤ c ∧ c ≤ max (a + 1) (w - 1) ∧
      0 ≤ b ∧ b ≤ h - 1 ∧ b + 1 ≤ d ∧ d ≤ max (b + 1) (h - 1) := by
  unfold normBoxCore
  split_ifs with hfrac
  · exact roundSortClamp_spec _ _ _ _ w h hw hh
  · exact roundSortClamp_spec _ _ _ _ w h hw hh

/-- Every `normalize_bbox` result is the sentinel or a box satisfying the
clamp-stage invariant. -/
theorem normalize_bbox_strong_spec (bbox : PyVal) (w h : Int) (hw : 0 < w) (hh : 0 < h) :
    normalize_bbox bbox (Option.some (w, h)) = [0, 0, 0, 0] ∨
    ∃ a b c d, normalize_bbox bbox (Option.some (w, h)) = [a, b, c, d] ∧
      0 ≤ a ∧ a ≤ w - 1 ∧ a + 1 ≤ c ∧ c ≤ max (a + 1) (w - 1) ∧
      0 ≤ b ∧ b ≤ h - 1 ∧ b + 1 ≤ d ∧ d ≤ max (b + 1) (h - 1) := by
  cases bbox with
  | list xs =>
    simp only [normalize_bbox]
    split_ifs with hlen hwh
    · exact Or.inl rfl
    · left
      split <;> rfl
    · split <;> first
        | exact normBoxCore_spec _ _ _ _ w h hw hh
        | exact Or.inl rfl
  | none => exact Or.inl rfl
  | bool b => exact Or.inl rfl
  | int n => exact Or.inl rfl
  | float q => exact Or.inl rfl
  | str s => exact Or.inl rfl
  | dict kvs => exact Or.inl rfl

/-- Feeding the sentinel back to `normalize_bbox` gives the sentinel: the four
zeros pass the fractional test, scale to zero, and collapse as degenerate. -/
theorem normalize_bbox_sentinel_fixed (w h : Int) (hw : 0 < w) (hh : 0 < h) :
    normalize_bbox (intListToPyVal [0, 0, 0, 0]) (Option.some (w, h)) = [0, 0, 0, 0] := by
  show (if w ≤ 0 ∨ h ≤ 0 then [0, 0, 0, 0]
      else normBoxCore (((0 : Int) : ℚ)) (((0 : Int) : ℚ)) (((0 : Int) : ℚ)) (((0 : Int) : ℚ)) w h)
    = [0, 0, 0, 0]
  rw [if_neg (by omega)]
  have hc : ((0 : Int) : ℚ) = 0 := by norm_num
  rw [hc]
  unfold normBoxCore
  rw [if_pos (by norm_num)]
  simp only [zero_mul, roundSortClamp, pyRound_zero, min_self, max_self]
  simp

/-- A box satisfying the clamp-stage invariant whose upper corner is not the
all-fractional corner `(1, 1)` is a fixed point of `normalize_bbox`. -/
theorem normalize_bbox_reapply (a b c d w h : Int) (hw : 0 < w) (hh : 0 < h)
    (h1 : 0 ≤ a) (h2 : a ≤ w - 1) (h3 : a + 1 ≤ c) (h4 : c ≤ max (a + 1) (w - 1))
    (h5 : 0 ≤ b) (h6 : b ≤ h - 1) (h7 : b + 1 ≤ d) (h8 : d ≤ max (b + 1) (h - 1))
    (hnu : ¬(c ≤ 1 ∧ d ≤ 1)) :
    normalize_bbox (intListToPyVal [a, b, c, d]) (Option.some (w, h)) = [a, b, c, d] := by
  show (if w ≤ 0 ∨ h ≤ 0 then [0, 0, 0, 0]
      else normBoxCore ((a : ℚ)) ((b : ℚ)) ((c : ℚ)) ((d : ℚ)) w h)
    = [a, b, c, d]
  rw [if_neg (by omega)]
  unfold normBoxCore
  rw [if_neg (by
    rintro ⟨-, ha1, -, hb1, -, hc1, -, hd1⟩
    have hc1' : c ≤ 1 := by exact_mod_cast hc1
    have hd1' : d ≤ 1 := by exact_mod_cast hd1
    exact hnu ⟨hc1', hd1'⟩)]
  simp only [roundSortClamp, pyRound_intCast]
  rw [min_eq_left (by omega : a ≤ c), max_eq_right (by omega : a ≤ c),
    min_eq_left (by omega : b ≤ d), max_eq_right (by omega : b ≤ d)]
  rw [if_neg (by omega)]
  rw [_clamp_eq_self h1 h2, _clamp_eq_self h5 h6]
  rw [_clamp_eq_self h3 h4, _clamp_eq_self h7 h8]
  rw [if_neg (by omega)]

/-- C1: for every input value and every image size with positive width and
height, `normalize_bbox` returns either the exact sentinel `[0,0,0,0]` or an
integer box `[x1,y1,x2,y2]` with `0 ≤ x1 < x2 ≤ width` and
`0 ≤ y1 < y2 ≤ height` (positive area, within image bounds); it never returns
a non-sentinel box with `x1 ≥ x2` or `y1 ≥ y2`. -/
theorem normalize_bbox_sentinel_or_valid (bbox : PyVal) (w h : Int)
    (hw : 0 < w) (hh : 0 < h) :
    normalize_bbox bbox (Option.some (w, h)) = [0, 0, 0, 0] ∨
    ∃ x1 y1 x2 y2, normalize_bbox bbox (Option.some (w, h)) = [x1, y1, x2, y2] ∧
      0 ≤ x1 ∧ x1 < x2 ∧ x2 ≤ w ∧ 0 ≤ y1 ∧ y1 < y2 ∧ y2 ≤ h := by
  rcases normalize_bbox_strong_spec bbox w h hw hh with
    hs | ⟨a, b, c, d, heq, h1, h2, h3, h4, h5, h6, h7, h8⟩
  · exact Or.inl hs
  · right
    exact ⟨a, b, c, d, heq, h1, by omega,
      le_trans h4 (max_le (by omega) (by omega)), h5, by omega,
      le_trans h8 (max_le (by omega) (by omega))⟩

/-- C1 witness: the theorem instantiated at the box `[1,2,3,4]` on a 10×10
image. -/
theorem normalize_bbox_sentinel_or_valid_witness :
    (0 : Int) < 10 ∧
    (normalize_bbox (intListToPyVal [1, 2, 3, 4]) (Option.some (10, 10)) = [0, 0, 0, 0] ∨
      ∃ x1 y1 x2 y2,
        normalize_bbox (intListToPyVal [1, 2, 3, 4]) (Option.some (10, 10)) = [x1, y1, x2, y2] ∧
        0 ≤ x1 ∧ x1 < x2 ∧ x2 ≤ 10 ∧ 0 ≤ y1 ∧ y1 < y2 ∧ y2 ≤ 10) :=
  ⟨by decide,
    normalize_bbox_sentinel_or_valid (intListToPyVal [1, 2, 3, 4]) 10 10 (by decide) (by decide)⟩

/-- C2 counterexample: the box `[0, 0, 0.5, 0.5]` on a 3×3 image normalizes to
`[0,0,1,1]`; feeding that output back re-triggers the fractional branch and
yields `[0,0,2,2]`, so `normalize_bbox` is not idempotent as claimed. -/
theorem normalize_bbox_not_idempotent :
    normalize_bbox
        (intListToPyVal (normalize_bbox
          (PyVal.list [PyVal.float 0, PyVal.float 0, PyVal.float (1/2), PyVal.float (1/2)])
          (Option.some (3, 3))))
        (Option.some (3, 3)) ≠
      normalize_bbox
        (PyVal.list [PyVal.float 0, PyVal.float 0, PyVal.float (1/2), PyVal.float (1/2)])
        (Option.some (3, 3)) := by
  decide

/-- C2 (amended): `normalize_bbox` is idempotent on its own output, except
when that output is the unit box `[0,0,1,1]`, the single non-sentinel box
whose coordinates all lie in `[0,1]` and are therefore re-read as fractional
on the second pass. -/
theorem normalize_bbox_idempotent_unless_unit_box (bbox : PyVal) (w h : Int)
    (hw : 0 < w) (hh : 0 < h)
    (hne : normalize_bbox bbox (Option.some (w, h)) ≠ [0, 0, 1, 1]) :
    normalize_bbox (intListToPyVal (normalize_bbox bbox (Option.some (w, h))))
        (Option.some (w, h)) =
      normalize_bbox bbox (Option.some (w, h)) := by
  rcases normalize_bbox_strong_spec bbox w h hw hh with
    hs | ⟨a, b, c, d, heq, h1, h2, h3, h4, h5, h6, h7, h8⟩
  · rw [hs]
    exact normalize_bbox_sentinel_fixed w h hw hh
  · rw [heq]
    apply normalize_bbox_reapply a b c d w h hw hh h1 h2 h3 h4 h5 h6 h7 h8
    rintro ⟨hc1, hd1⟩
    apply hne
    rw [heq]
    have ha : a = 0 := by omega
    have hb : b = 0 := by omega
    have hc : c = 1 := by omega
    have hd : d = 1 := by omega
    rw [ha, hb, hc, hd]

/-- C2 amended-claim witness: the theorem instantiated at the box
`[10,20,30,40]` on a 100×100 image. -/
theorem normalize_bbox_idempotent_unless_unit_box_witness :
    normalize_bbox
        (intListToPyVal (normalize_bbox (intListToPyVal [10, 20, 30, 40])
          (Option.some (100, 100))))
        (Option.some (100, 100)) =
      normalize_bbox (intListToPyVal [10, 20, 30, 40]) (Option.some (100, 100)) :=
  normalize_bbox_idempotent_unless_unit_box (intListToPyVal [10, 20, 30, 40]) 100 100
    (by decide) (by decide) (by decide)

/-- Bounds of the synthesized square box of `ensure_bbox`, for any half-width. -/
theorem ensure_box_bounds (x y w h H : Int) (hw : 0 < w) (hh : 0 < h) :
    0 ≤ _clamp (x - H) 0 (w - 1) ∧
    _clamp (x - H) 0 (w - 1) < _clamp (x + H) (_clamp (x - H) 0 (w - 1) + 1) w ∧
    _clamp (x + H) (_clamp (x - H) 0 (w - 1) + 1) w ≤ w ∧
    0 ≤ _clamp (y - H) 0 (h - 1) ∧
    _clamp (y - H) 0 (h - 1) < _clamp (y + H) (_clamp (y - H) 0 (h - 1) + 1) h ∧
    _clamp (y + H) (_clamp (y - H) 0 (h - 1) + 1) h ≤ h := by
  have a1 := le_clamp (x - H) 0 (w - 1)
  have a2 : _clamp (x - H) 0 (w - 1) ≤ w - 1 := _clamp_le (by omega)
  have a3 := le_clamp (x + H) (_clamp (x - H) 0 (w - 1) + 1) w
  have a4 : _clamp (x + H) (_clamp (x - H) 0 (w - 1) + 1) w ≤ w := _clamp_le (by omega)
  have b1 := le_clamp (y - H) 0 (h - 1)
  have b2 : _clamp (y - H) 0 (h - 1) ≤ h - 1 := _clamp_le (by omega)
  have b3 := le_clamp (y + H) (_clamp (y - H) 0 (h - 1) + 1) h
  have b4 : _clamp (y + H) (_clamp (y - H) 0 (h - 1) + 1) h ≤ h := _clamp_le (by omega)
  exact ⟨a1, by omega, a4, b1, by omega, b4⟩

/-- C3: for a non-zero point inside the bounds of an image with positive
width and height, `ensure_bbox` on the sentinel synthesizes the square box of
half-width `max 20 (round (min w h * 0.05))` centered on the point and
clamped to the image, and that box has positive area and lies inside the
image (`x2 ≤ w`, `y2 ≤ h`; box edges are exclusive pixel bounds, so the
covered pixels lie in `[0,width) × [0,height)`). -/
theorem ensure_bbox_synthesizes (x y w h : Int) (hw : 0 < w) (hh : 0 < h)
    (hx0 : 0 ≤ x) (hxw : x < w) (hy0 : 0 ≤ y) (hyh : y < h)
    (hnz : ¬(x = 0 ∧ y = 0)) :
    ensure_bbox [0, 0, 0, 0] [x, y] (Option.some (w, h)) =
      (let half := max 20 (pyRound (((min w h : Int) : ℚ) * (1/20)));
       let x1 := _clamp (x - half) 0 (w - 1);
       let y1 := _clamp (y - half) 0 (h - 1);
       [x1, y1, _clamp (x + half) (x1 + 1) w, _clamp (y + half) (y1 + 1) h]) ∧
    ∃ x1 y1 x2 y2,
      ensure_bbox [0, 0, 0, 0] [x, y] (Option.some (w, h)) = [x1, y1, x2, y2] ∧
      0 ≤ x1 ∧ x1 < x2 ∧ x2 ≤ w ∧ 0 ≤ y1 ∧ y1 < y2 ∧ y2 ≤ h := by
  have hcond : x ≠ 0 ∨ y ≠ 0 := by omega
  have e : ensure_bbox [0, 0, 0, 0] [x, y] (Option.some (w, h)) =
      (let half := max 20 (pyRound (((min w h : Int) : ℚ) * (1/20)));
       let x1 := _clamp (x - half) 0 (w - 1);
       let y1 := _clamp (y - half) 0 (h - 1);
       [x1, y1, _clamp (x + half) (x1 + 1) w, _clamp (y + half) (y1 + 1) h]) := by
    show (if x ≠ 0 ∨ y ≠ 0 then _ else _) = _
    rw [if_pos hcond]
  refine ⟨e, ?_⟩
  rw [e]
  obtain ⟨b1, b2, b3, b4, b5, b6⟩ :=
    ensure_box_bounds x y w h (max 20 (pyRound (((min w h : Int) : ℚ) * (1/20)))) hw hh
  exact ⟨_, _, _, _, rfl, b1, b2, b3, b4, b5, b6⟩

/-- C3 witness: the theorem instantiated at point `(30, 40)` on a 100×100
image. -/
theorem ensure_bbox_synthesizes_witness :
    ensure_bbox [0, 0, 0, 0] [30, 40] (Option.some (100, 100)) =
      (let half := max 20 (pyRound (((min 100 100 : Int) : ℚ) * (1/20)));
       let x1 := _clamp (30 - half) 0 (100 - 1);
       let y1 := _clamp (40 - half) 0 (100 - 1);
       [x1, y1, _clamp (30 + half) (x1 + 1) 100, _clamp (40 + half) (y1 + 1) 100]) ∧
    ∃ x1 y1 x2 y2,
      ensure_bbox [0, 0, 0, 0] [30, 40] (Option.some (100, 100)) = [x1, y1, x2, y2] ∧
      0 ≤ x1 ∧ x1 < x2 ∧ x2 ≤ 100 ∧ 0 ≤ y1 ∧ y1 < y2 ∧ y2 ≤ 100 :=
  ensure_bbox_synthesizes 30 40 100 100 (by decide) (by decide) (by decide) (by decide)
    (by decide) (by decide) (by decide)

/-- C4: for every point whose first two entries convert to rationals in
`[0, 1]` and every image size with positive width and height,
`normalize_point` treats the values as fractional and returns
`[round(x*(width-1)), round(y*(height-1))]`, which lies within
`[0, width-1] × [0, height-1]`. -/
theorem normalize_point_fractional (xs : List PyVal) (w h : Int) (qx qy : ℚ)
    (hlen : 2 ≤ xs.length)
    (hx : _to_float (xs.getD 0 PyVal.none) = Option.some qx)
    (hy : _to_float (xs.getD 1 PyVal.none) = Option.some qy)
    (hqx0 : 0 ≤ qx) (hqx1 : qx ≤ 1) (hqy0 : 0 ≤ qy) (hqy1 : qy ≤ 1)
    (hw : 0 < w) (hh : 0 < h) :
    normalize_point (PyVal.list xs) (Option.some (w, h)) =
      [pyRound (qx * ((w : ℚ) - 1)), pyRound (qy * ((h : ℚ) - 1))] ∧
    0 ≤ pyRound (qx * ((w : ℚ) - 1)) ∧ pyRound (qx * ((w : ℚ) - 1)) ≤ w - 1 ∧
    0 ≤ pyRound (qy * ((h : ℚ) - 1)) ∧ pyRound (qy * ((h : ℚ) - 1)) ≤ h - 1 := by
  have hw1 : (0 : ℚ) ≤ (w : ℚ) - 1 := by
    have : (1 : ℚ) ≤ (w : ℚ) := by exact_mod_cast hw
    linarith
  have hh1 : (0 : ℚ) ≤ (h : ℚ) - 1 := by
    have : (1 : ℚ) ≤ (h : ℚ) := by exact_mod_cast hh
    linarith
  have hxlb : (0 : ℚ) ≤ qx * ((w : ℚ) - 1) := mul_nonneg hqx0 hw1
  have hxub : qx * ((w : ℚ) - 1) ≤ ((w - 1 : Int) : ℚ) := by
    have := mul_le_of_le_one_left hw1 hqx1
    push_cast
    linarith
  have hylb : (0 : ℚ) ≤ qy * ((h : ℚ) - 1) := mul_nonneg hqy0 hh1
  have hyub : qy * ((h : ℚ) - 1) ≤ ((h - 1 : Int) : ℚ) := by
    have := mul_le_of_le_one_left hh1 hqy1
    push_cast
    linarith
  have rx0 : 0 ≤ pyRound (qx * ((w : ℚ) - 1)) :=
    le_pyRound (by exact_mod_cast hxlb)
  have rx1 : pyRound (qx * ((w : ℚ) - 1)) ≤ w - 1 := pyRound_le hxub
  have ry0 : 0 ≤ pyRound (qy * ((h : ℚ) - 1)) :=
    le_pyRound (by exact_mod_cast hylb)
  have ry1 : pyRound (qy * ((h : ℚ) - 1)) ≤ h - 1 := pyRound_le hyub
  refine ⟨?_, rx0, rx1, ry0, ry1⟩
  show (if xs.length < 2 then _ else _) = _
  rw [if_neg (by omega)]
  rw [hx, hy]
  show (if w ≤ 0 ∨ h ≤ 0 then _ else _) = _
  rw [if_neg (by omega)]
  show [_clamp (if 0 ≤ qx ∧ qx ≤ 1 ∧ 0 ≤ qy ∧ qy ≤ 1 then
          (pyRound (qx * ((w : ℚ) - 1)), pyRound (qy * ((h : ℚ) - 1)))
        else (pyRound qx, pyRound qy)).1 0 (w - 1),
       _clamp (if 0 ≤ qx ∧ qx ≤ 1 ∧ 0 ≤ qy ∧ qy ≤ 1 then
          (pyRound (qx * ((w : ℚ) - 1)), pyRound (qy * ((h : ℚ) - 1)))
        else (pyRound qx, pyRound qy)).2 0 (h - 1)] = _
  rw [if_pos ⟨hqx0, hqx1, hqy0, hqy1⟩]
  show [_clamp (pyRound (qx * ((w : ℚ) - 1))) 0 (w - 1),
        _clamp (pyRound (qy * ((h : ℚ) - 1))) 0 (h - 1)] = _
  rw [_clamp_eq_self rx0 rx1, _clamp_eq_self ry0 ry1]

/-- C4 witness: the theorem instantiated at the point `[0.5, 0.5]` on a
100×200 image. -/
theorem normalize_point_fractional_witness :
    normalize_point (PyVal.list [PyVal.float (1/2), PyVal.float (1/2)])
        (Option.some (100, 200)) =
      [pyRound ((1/2 : ℚ) * (((100 : Int) : ℚ) - 1)),
       pyRound ((1/2 : ℚ) * (((200 : Int) : ℚ) - 1))] ∧
    0 ≤ pyRound ((1/2 : ℚ) * (((100 : Int) : ℚ) - 1)) ∧
    pyRound ((1/2 : ℚ) * (((100 : Int) : ℚ) - 1)) ≤ 100 - 1 ∧
    0 ≤ pyRound ((1/2 : ℚ) * (((200 : Int) : ℚ) - 1)) ∧
    pyRound ((1/2 : ℚ) * (((200 : Int) : ℚ) - 1)) ≤ 200 - 1 :=
  normalize_point_fractional [PyVal.float (1/2), PyVal.float (1/2)] 100 200 (1/2) (1/2)
    (by decide) rfl rfl (by decide) (by decide) (by decide) (by decide) (by decide) (by decide)

/-- A verdict whose coerced flag is false has cleared point and bbox and keeps
only the coerced reason. -/
theorem assembleVerdict_clear (parsed? : Option PyVal) (size : Option (Int × Int))
    (hflag : pyTruthy (pyGet (parsedOrFallback parsed?) "is_forbidden" (PyVal.bool false))
      = false) :
    assembleVerdict parsed? size =
      { is_forbidden := false, reason := coerceReason (parsedOrFallback parsed?),
        point := [0, 0], bbox := [0, 0, 0, 0] } := by
  simp only [assembleVerdict, hflag]
  simp

/-- The fallback parse result assembles to the fallback verdict. -/
theorem assembleVerdict_none_eq_fallback (size : Option (Int × Int)) :
    assembleVerdict Option.none size = fallbackVerdict := by
  rw [assembleVerdict_clear Option.none size (by decide)]
  rfl

/-- C5: for every parse result whose `is_forbidden` entry is missing or falsy
(so the coerced flag is false), assembling yields a verdict with
`point = [0,0]` and `bbox = [0,0,0,0]`, regardless of any point or bbox
fields present in the parsed object. -/
theorem assemble_clear_zeroes (p : PyVal) (size : Option (Int × Int))
    (hflag : pyTruthy (pyGet p "is_forbidden" (PyVal.bool false)) = false) :
    (assembleVerdict (Option.some p) size).point = [0, 0] ∧
    (assembleVerdict (Option.some p) size).bbox = [0, 0, 0, 0] := by
  have hf : pyTruthy (pyGet (parsedOrFallback (Option.some p)) "is_forbidden"
      (PyVal.bool false)) = false := by
    simp only [parsedOrFallback]
    split_ifs with hkeep
    · exact hflag
    · decide
  constructor <;> rw [assembleVerdict_clear (Option.some p) size hf]

/-- C5 witness: a falsy-flag object carrying extraneous point and bbox fields
still assembles to the zero sentinels. -/
theorem assemble_clear_zeroes_witness :
    (assembleVerdict (Option.some (PyVal.dict [("is_forbidden", PyVal.bool false),
        ("reason", PyVal.str "ok"), ("point", PyVal.list [PyVal.int 3, PyVal.int 4]),
        ("bbox", PyVal.list [PyVal.int 1, PyVal.int 2, PyVal.int 3, PyVal.int 4])]))
      (Option.some (10, 10))).point = [0, 0] ∧
    (assembleVerdict (Option.some (PyVal.dict [("is_forbidden", PyVal.bool false),
        ("reason", PyVal.str "ok"), ("point", PyVal.list [PyVal.int 3, PyVal.int 4]),
        ("bbox", PyVal.list [PyVal.int 1, PyVal.int 2, PyVal.int 3, PyVal.int 4])]))
      (Option.some (10, 10))).bbox = [0, 0, 0, 0] :=
  assemble_clear_zeroes _ _ (by decide)

/-- C6: assembling never raises (the model is a total function), and whenever
cleaning-and-parsing yields nothing or a non-object, the result is exactly the
fallback verdict with `reason = "parse_error"` and `is_forbidden = false`. -/
theorem assemble_fallback_on_parse_failure (content : String) (size : Option (Int × Int))
    (hp : ∀ v, parseContent content = Option.some v → isDict v = false) :
    assemble content size = fallbackVerdict := by
  unfold assemble
  cases hpc : parseContent content with
  | none => exact assembleVerdict_none_eq_fallback size
  | some v =>
    have hd := hp v hpc
    have hpf : parsedOrFallback (Option.some v) = fallbackParsed := by
      simp only [parsedOrFallback]
      rw [hd, Bool.and_false]
      simp
    have hf : pyTruthy (pyGet (parsedOrFallback (Option.some v)) "is_forbidden"
        (PyVal.bool false)) = false := by
      rw [hpf]
      decide
    rw [assembleVerdict_clear (Option.some v) size hf, hpf]
    rfl

/-- C6 witness: the literal text `not json at all` assembles to the fallback
verdict. -/
theorem assemble_fallback_on_parse_failure_witness :
    assemble "not json at all" (Option.some (10, 10)) = fallbackVerdict :=
  assemble_fallback_on_parse_failure "not json at all" (Option.some (10, 10))
    (fun v hv => by
      rw [show parseContent "not json at all" = Option.none from rfl] at hv
      cases hv)

/-- C7: `extract_json` is total and never raises: it returns nothing when the
cleaned text has no brace span or when the located span fails to parse, and
on `prefix {"a":1} suffix` it returns the parsed object. -/
theorem extract_json_contract :
    (∀ text, braceSpanChars (cleanChars text.toList) = Option.none →
      extract_json text = Option.none) ∧
    (∀ text span, braceSpanChars (cleanChars text.toList) = Option.some span →
      json_loads (String.mk span) = Option.none → extract_json text = Option.none) ∧
    extract_json "prefix \x7b\"a\":1\x7d suffix" =
      Option.some (PyVal.dict [("a", PyVal.int 1)]) := by
  refine ⟨?_, ?_, rfl⟩
  · intro text hspan
    simp only [extract_json]
    rw [hspan]
  · intro text span hspan hload
    simp only [extract_json]
    rw [hspan]
    exact hload

/-- C7 witness: a text with no brace span, and a text whose greedy span is not
JSON, both give nothing. -/
theorem extract_json_contract_witness :
    extract_json "no braces at all" = Option.none ∧
    extract_json "a \x7b not json \x7d b" = Option.none :=
  ⟨extract_json_contract.1 "no braces at all" rfl,
   extract_json_contract.2.1 "a \x7b not json \x7d b" ("\x7b not json \x7d".toList) rfl rfl⟩

/-- C8: assembling the response with `is_forbidden` true, reason `knife` and
only a fractional point `[0.5, 0.5]` against a 100×200 image yields a point
within one pixel of `[49, 99]` (the exact value is `[50, 100]` by
round-half-to-even) and a synthesized non-sentinel bbox with positive area,
since no bbox was supplied. -/
theorem assemble_flagged_point_only :
    ∃ px py b1 b2 b3 b4,
      assemble "\x7b\"is_forbidden\": true, \"reason\": \"knife\", \"point\": [0.5, 0.5]\x7d"
          (Option.some (100, 200)) =
        { is_forbidden := true, reason := "knife", point := [px, py],
          bbox := [b1, b2, b3, b4] } ∧
      (px - 49).natAbs ≤ 1 ∧ (py - 99).natAbs ≤ 1 ∧
      [b1, b2, b3, b4] ≠ [0, 0, 0, 0] ∧ b1 < b3 ∧ b2 < b4 :=
  ⟨50, 100, 30, 80, 70, 120, by decide, by decide, by decide, by decide, by decide, by decide⟩

/-- C9 counterexample: with an output record `img1.json` already present, the
main driver still processes `img1` (its loop body has no existence check),
while the bu variant skips it; the claim fails for the main batch driver. -/
theorem client_processes_existing_record :
    clientProcessedStems ["img1.json"] ["img1"] = ["img1"] ∧
    buProcessedStems ["img1.json"] ["img1"] = [] := by
  decide

/-- C9 (amended): only the bu variant of the batch driver skips an image whose
output record (named after the image stem) already exists; the main driver
processes every discovered image regardless of existing records. -/
theorem batch_skip_only_in_bu (existing stems : List String) (stem : String)
    (hmem : stem ∈ stems) (hrec : existing.contains (stem ++ ".json") = true) :
    stem ∉ buProcessedStems existing stems ∧ stem ∈ clientProcessedStems existing stems := by
  refine ⟨?_, hmem⟩
  intro hmem2
  unfold buProcessedStems at hmem2
  rw [List.mem_filter] at hmem2
  simp at hmem2
  exact hmem2.2 (by simpa using hrec)

/-- C9 amended-claim witness: the theorem instantiated at a concrete stem and
record list. -/
theorem batch_skip_only_in_bu_witness :
    "a" ∉ buProcessedStems ["a.json"] ["a", "b"] ∧
    "a" ∈ clientProcessedStems ["a.json"] ["a", "b"] :=
  batch_skip_only_in_bu ["a.json"] ["a", "b"] "a" (by decide) (by decide)

/-- C10: on `x {"a":1} y {"b":2} z` the greedy regex selects the span from the
first opening brace to the last closing brace; that span fails to parse as
JSON, no narrower span is attempted, and `extract_json` returns nothing even
though the text contains the well-formed object `{"a":1}`. -/
theorem extract_json_greedy_spans_both_objects :
    json_loads "\x7b\"a\":1\x7d" = Option.some (PyVal.dict [("a", PyVal.int 1)]) ∧
    braceSpanChars (cleanChars ("x \x7b\"a\":1\x7d y \x7b\"b\":2\x7d z").toList) =
      Option.some ("\x7b\"a\":1\x7d y \x7b\"b\":2\x7d".toList) ∧
    json_loads "\x7b\"a\":1\x7d y \x7b\"b\":2\x7d" = Option.none ∧
    extract_json "x \x7b\"a\":1\x7d y \x7b\"b\":2\x7d z" = Option.none :=
  ⟨rfl, rfl, rfl, rfl⟩
